import Mathlib

/-!
# SimpleLibrary2D_01: frame synchronisation and engine life cycle

A shallow embedding of `Engine/Graphics/Fence/Fence.cpp`, `Src/Engine/Engine.cpp`
and the members declared in `Engine/Graphics/Graphics.h`.

* C++ objects are records, member functions are functions on those records.
* A null pointer or null handle is `none`.
* `UINT64` is a `Nat` reduced modulo `2 ^ 64` where the code does arithmetic.
* Calls into Direct3D 12, Win32 and the collaborating classes are recorded, in
  program order, as a list of `Call`s.
* What the outside world answers (does a creation succeed, which completion
  value does the GPU report, does the wait event ever fire) is an explicit
  argument of the operation that asks.
* A member function that dereferences a null pointer ends in `Outcome.crash`;
  one that blocks for ever in `WaitForSingleObject(…, INFINITE)` ends in
  `Outcome.hang`.
-/

namespace SimpleLibrary2D

/-! ## Common definitions -/

/-- Number of values of the C++ type `UINT64`. -/
def UINT64_RANGE : Nat := 2 ^ 64

/-- Largest value of the C++ type `UINT64`. -/
def UINT64_MAX : Nat := 2 ^ 64 - 1

/-- A call that leaves the translated code, with the arguments that matter. -/
inductive Call where
  /-- The call `ID3D12Device::CreateFence(initialValue, …)` and whether it succeeded. -/
  | createFence (initialValue : Nat) (ok : Bool)
  /-- The call `CreateEvent(nullptr, FALSE, FALSE, nullptr)` and whether it gave a handle. -/
  | createEvent (ok : Bool)
  /-- The call `MessageBox(…, MB_OK | MB_ICONERROR)`. -/
  | messageBox
  /-- The call `ID3D12CommandQueue::Signal(fence, value)`. -/
  | signal (value : Nat)
  /-- The call `ID3D12Fence::GetCompletedValue()` and its result. -/
  | getCompletedValue (result : Nat)
  /-- The call `ID3D12Fence::SetEventOnCompletion(value, fenceEvent)`. -/
  | setEventOnCompletion (value : Nat)
  /-- The call `WaitForSingleObject(fenceEvent, INFINITE)`. -/
  | waitForSingleObject
  /-- The call `ID3D12Fence::Release()` on the fence with the given handle. -/
  | release (handle : Nat)
  /-- The call `Window::Initialize()` and its result. -/
  | windowInitialize (ok : Bool)
  /-- The call `Window::Update()`. -/
  | windowUpdate
  /-- The call `Window::IsClosed()`. -/
  | windowIsClosed
  /-- The call `Window::SetWindowSize(width, height)`. -/
  | windowSetWindowSize (width height : Int)
  /-- The call `Graphics::Initialize()` and its result. -/
  | graphicsInitialize (ok : Bool)
  /-- The call `Graphics::ClearScreen()`. -/
  | graphicsClearScreen
  /-- The call `Graphics::ScreenFlip()`. -/
  | graphicsScreenFlip
  /-- The call `Graphics::WaitForPreviousFrame()`. -/
  | graphicsWaitForPreviousFrame
  /-- Submission of the closed command list to the command queue. -/
  | executeCommandLists
  /-- The call `IDXGISwapChain::Present`. -/
  | present
  deriving DecidableEq, Repr

/-- How a call of a member function ends. -/
inductive Outcome (α : Type) where
  /-- The function returned. -/
  | returned (a : α)
  /-- The function blocks for ever in `WaitForSingleObject(fenceEvent, INFINITE)`. -/
  | hang
  /-- The function dereferenced a null pointer. -/
  | crash
  deriving DecidableEq, Repr

/-- Sequencing of two statements: the second runs only when the first returned. -/
def Outcome.bind {α β : Type} (x : Outcome α) (f : α → Outcome β) : Outcome β :=
  match x with
  | .returned a => f a
  | .hang => .hang
  | .crash => .crash

/-- The value a call returned with, if it returned. -/
def Outcome.toOption {α : Type} (x : Outcome α) : Option α :=
  match x with
  | .returned a => some a
  | .hang => none
  | .crash => none

/-! ## Fence (`Engine/Graphics/Fence/Fence.cpp`) -/

/-- The data members of `class Fence`. -/
structure Fence where
  /-- Member `ComPtr<ID3D12Fence> fence`: the handle of the native fence, `none` for `nullptr`. -/
  fence : Option Nat
  /-- Member `HANDLE fenceEvent`: the handle of the wait event, `none` for `nullptr`. -/
  fenceEvent : Option Nat
  /-- Member `UINT64 fenceValue`: the local counter. -/
  fenceValue : Nat
  deriving DecidableEq, Repr

/-- Constructor `Fence::Fence() : fence(nullptr), fenceEvent(nullptr), fenceValue(0)`. -/
def Fence.new : Fence :=
  { fence := none, fenceEvent := none, fenceValue := 0 }

/-- What the device and the operating system answer during `Fence::Initialize`. -/
structure FenceCreation where
  /-- Result of `CreateFence`: the handle written to `fence`, `none` when `FAILED`. -/
  createFence : Option Nat
  /-- Result of `CreateEvent`: the event handle, `none` for `nullptr`. -/
  createEvent : Option Nat
  deriving DecidableEq, Repr

/-- Function `bool Fence::Initialize(ComPtr<ID3D12Device> device)`: the returned flag, the
object afterwards and the calls made. The device is taken to be a valid one. A
failing `CreateFence` is taken to leave the member `fence` as it was. -/
def Fence.Initialize (self : Fence) (env : FenceCreation) : Bool × Fence × List Call :=
  match env.createFence with
  | none =>
    -- `FAILED(CreateFence(0, …))`: report and leave
    (false, self, [.createFence 0 false, .messageBox])
  | some h =>
    -- `fenceValue = 1;`
    let self1 : Fence := { self with fence := some h, fenceValue := 1 }
    -- `fenceEvent = CreateEvent(nullptr, FALSE, FALSE, nullptr);`
    match env.createEvent with
    | none =>
      (false, { self1 with fenceEvent := none },
        [.createFence 0 true, .createEvent false, .messageBox])
    | some e =>
      (true, { self1 with fenceEvent := some e },
        [.createFence 0 true, .createEvent true])

/-- What the GPU time line lets one `Fence::WaitForPreviousFrame` call observe. -/
structure Gpu where
  /-- The value `fence->GetCompletedValue()` returns at the check. -/
  completed : Nat
  /-- The answer to `SetEventOnCompletion(v, fenceEvent)` followed by
  `WaitForSingleObject(fenceEvent, INFINITE)`: `some c` when the calling thread is
  woken, `c` being the fence's completion value at that moment, and `none` when
  it is never woken. -/
  wake : Nat → Option Nat

/-- What a returning `Fence::WaitForPreviousFrame` leaves behind. -/
structure Waited where
  /-- The object after the call. -/
  self : Fence
  /-- The calls made, in program order. -/
  calls : List Call
  /-- The fence's completion value the call last observed before it returned. -/
  completedAtReturn : Nat
  deriving DecidableEq, Repr

/-- Function `void Fence::WaitForPreviousFrame(ComPtr<ID3D12CommandQueue> commandQueue)`.
The command queue is taken to be a valid one. -/
def Fence.WaitForPreviousFrame (self : Fence) (gpu : Gpu) : Outcome Waited :=
  -- `const UINT64 tmpFence = fenceValue;`
  let tmpFence := self.fenceValue
  -- `commandQueue.Get()->Signal(fence.Get(), tmpFence);  fenceValue++;`
  let self1 : Fence := { self with fenceValue := (self.fenceValue + 1) % UINT64_RANGE }
  match self.fence with
  | none =>
    -- `fence->GetCompletedValue()` through a null `ComPtr`
    .crash
  | some _ =>
    if gpu.completed < tmpFence then
      -- `fence->SetEventOnCompletion(tmpFence, fenceEvent);`
      -- `WaitForSingleObject(fenceEvent, INFINITE);`
      match gpu.wake tmpFence with
      | none => .hang
      | some c =>
        .returned
          { self := self1
            calls := [.signal tmpFence, .getCompletedValue gpu.completed,
                      .setEventOnCompletion tmpFence, .waitForSingleObject]
            completedAtReturn := c }
    else
      .returned
        { self := self1
          calls := [.signal tmpFence, .getCompletedValue gpu.completed]
          completedAtReturn := gpu.completed }

/-- Function `void Fence::Finalize()`: `fence->Release();`. The member `fence` keeps the
pointer it had. -/
def Fence.Finalize (self : Fence) : Outcome (Fence × List Call) :=
  match self.fence with
  | none => .crash
  | some h => .returned (self, [.release h])

/-- Destructor `Fence::~Fence()`, the calls it makes. Its body is
`if (fence != nullptr) { fence->Release(); }`; after the body the member `fence`
is destroyed, and being a `ComPtr` (the code calls `fence.GetAddressOf()` and
`fence.Get()`) it releases the pointer it still holds once more. No member
function resets `fence`, so both releases happen whenever a fence was ever
created. -/
def Fence.destructor (self : Fence) : List Call :=
  match self.fence with
  | none => []
  | some h =>
    -- the body, then the destructor of the `ComPtr` member
    [.release h, .release h]

/-- Number of `ID3D12Fence::Release()` calls in a list of calls. -/
def releaseCount (calls : List Call) : Nat :=
  calls.countP fun c => match c with
    | .release _ => true
    | _ => false

/-- Whether a call is a submission of GPU work: a signal or a command list. -/
def Call.isSubmission : Call → Bool
  | .signal _ => true
  | .executeCommandLists => true
  | .present => true
  | _ => false

/-- Whether a call creates the wait event. -/
def Call.isCreateEvent : Call → Bool
  | .createEvent _ => true
  | _ => false

/-- Whether a call registers the wait event or blocks on it. -/
def Call.isWait : Call → Bool
  | .setEventOnCompletion _ => true
  | .waitForSingleObject => true
  | _ => false

/-! ## Graphics (`Engine/Graphics/Graphics.h`) -/

/-- Constant `static const UINT frameCount = 2;` of `class Graphics`. -/
def Graphics.frameCount : Nat := 2

/-- Modelled from the spec: the swap chain, whose class is not among the sources.
It is a rotating set of `bufferCount` presentable buffers, `current` being the
index it reports as the current back buffer. -/
structure SwapChain where
  /-- Number of buffers the swap chain rotates through. -/
  bufferCount : Nat
  /-- The reported current-buffer index. -/
  current : Nat
  deriving DecidableEq, Repr

/-- Modelled from the spec: presenting swaps which buffer is visible and which is
writable, the reported index advancing by one modulo the number of buffers. -/
def SwapChain.Present (sc : SwapChain) : SwapChain :=
  { sc with current := (sc.current + 1) % sc.bufferCount }

/-- Modelled from the spec: the frame controller as the owner of one
synchronisation fence of `class Fence` (spec, sections 3 and 4.2). `Graphics.h`
declares `frameIndex` and `swapChain`; it declares no member of `class Fence`
but members of its own, `ComPtr<ID3D12Fence> fence`, `HANDLE fenceEvent`, a
private `UINT64 fenceValue` and `InitializeFence()`, whose code (`Graphics.cpp`)
is not among the sources. The member functions below go through the `Fence`
the spec gives the controller. -/
structure Graphics where
  /-- Member `UINT frameIndex = 0;` of `Graphics.h`. -/
  frameIndex : Nat
  /-- Member `SwapChain swapChain;` of `Graphics.h`: `none` until the swap chain is
  built. -/
  swapChain : Option SwapChain
  /-- Modelled from the spec: the synchronisation fence the controller owns. -/
  fence : Fence
  deriving DecidableEq, Repr

/-- Modelled from the spec: the controller after `Graphics::Graphics()`, its fence
being a freshly constructed `Fence` (`Fence::Fence()`: null handles, counter 0).
The in-class initialiser of `Graphics.h` gives `frameIndex = 0`. The header's
own `fenceEvent` and `fenceValue`, which the fence stands for, have no
initialiser and hold indeterminate values until the controller is initialised;
nothing below depends on the handles or the counter of a controller that was
never initialised. -/
def Graphics.new : Graphics :=
  { frameIndex := 0, swapChain := none, fence := Fence.new }

/-- What the collaborators answer during `Graphics::Initialize`. -/
structure GraphicsCreation where
  /-- Whether the device and the command queue are built. -/
  device : Bool
  /-- Whether the swap chain is built. -/
  swapChain : Bool
  /-- Whether root signature, pipeline state, command allocator, command list,
  descriptor heap and render-target views are built. -/
  pipeline : Bool
  /-- The answers to the fence's initialisation. -/
  fence : FenceCreation
  deriving DecidableEq, Repr

/-- Modelled from the spec: `Graphics::Initialize`, whose body (`Graphics.cpp`) is
not among the sources. It builds, in this order, the device and command queue,
the swap chain with `frameCount` buffers, the pipeline objects and the fence; the
first failure aborts and returns false. -/
def Graphics.Initialize (self : Graphics) (env : GraphicsCreation) :
    Bool × Graphics × List Call :=
  if !env.device then (false, self, [])
  else if !env.swapChain then (false, self, [])
  else
    let self1 : Graphics :=
      { self with swapChain := some { bufferCount := Graphics.frameCount, current := 0 } }
    if !env.pipeline then (false, self1, [])
    else
      let r := self1.fence.Initialize env.fence
      (r.1, { self1 with fence := r.2.1 }, r.2.2)

/-- Modelled from the spec: `Graphics::ClearScreen`, whose body is not among the
sources. It records the begin-frame commands for the current back buffer and
touches neither `frameIndex` nor the fence; without a swap chain there is no
back buffer to address. -/
def Graphics.ClearScreen (self : Graphics) : Outcome (Graphics × List Call) :=
  match self.swapChain with
  | none => .crash
  | some _ => .returned (self, [])

/-- Modelled from the spec: `Graphics::WaitForPreviousFrame`, whose body is not
among the sources: a pass-through to the fence's `WaitForPreviousFrame`. -/
def Graphics.WaitForPreviousFrame (self : Graphics) (gpu : Gpu) :
    Outcome (Graphics × List Call) :=
  (self.fence.WaitForPreviousFrame gpu).bind fun w =>
    .returned ({ self with fence := w.self }, w.calls)

/-- Modelled from the spec: `Graphics::Finalize`, whose body is not among the
sources: a pass-through to the fence's `Finalize`. -/
def Graphics.Finalize (self : Graphics) : Outcome (Graphics × List Call) :=
  self.fence.Finalize.bind fun r =>
    .returned ({ self with fence := r.1 }, r.2)

/-- Modelled from the spec: `Graphics::ScreenFlip`, whose body is not among the
sources. It closes and submits the command list, requests presentation, sets
`frameIndex` to the swap chain's new current-buffer index and ends with one call
of the fence's `WaitForPreviousFrame`. -/
def Graphics.ScreenFlip (self : Graphics) (gpu : Gpu) : Outcome (Graphics × List Call) :=
  match self.swapChain with
  | none => .crash
  | some sc =>
    let sc1 := sc.Present
    let self1 : Graphics := { self with swapChain := some sc1, frameIndex := sc1.current }
    (self1.fence.WaitForPreviousFrame gpu).bind fun w =>
      .returned ({ self1 with fence := w.self },
        [.executeCommandLists, .present] ++ w.calls)

/-! ## Engine (`Src/Engine/Engine.cpp`) -/

/-- Modelled from the spec: the window, an external collaborator whose class is
not among the sources. -/
structure Window where
  /-- Whether `Window::Initialize()` has succeeded. -/
  initialized : Bool
  /-- Client width set by `SetWindowSize`. -/
  width : Int
  /-- Client height set by `SetWindowSize`. -/
  height : Int
  deriving DecidableEq, Repr

/-- Modelled from the spec: a window on which nothing has been called yet. -/
def Window.new : Window :=
  { initialized := false, width := 0, height := 0 }

/-- Modelled from the spec: the macro `B_FAILED` of `CommonDifinition.h`, which is
not among the sources: a `bool` result reports failure when it is false. -/
def B_FAILED (b : Bool) : Bool := !b

/-- An object of `class Engine`, with the address `new` gave it. -/
structure Engine where
  /-- The address of the object. -/
  address : Nat
  /-- The member `window`. -/
  window : Window
  /-- The member `graphics`. -/
  graphics : Graphics
  deriving DecidableEq, Repr

/-- The expression `new Engine()` when the allocator answers `address`. -/
def Engine.new (address : Nat) : Engine :=
  { address := address, window := Window.new, graphics := Graphics.new }

/-- The static state of the program and the calls made so far. -/
structure Process where
  /-- Member `Engine* Engine::instance`: `none` for `nullptr`. -/
  instancePtr : Option Engine
  /-- The calls the engine has made, in program order. -/
  calls : List Call
  deriving DecidableEq, Repr

/-- The state at program start: `Engine* Engine::instance = nullptr;`. -/
def Process.start : Process :=
  { instancePtr := none, calls := [] }

/-- The statement `if (instance == nullptr) { instance = new Engine(); }`. -/
def Process.ensureInstance (p : Process) (address : Nat) : Engine :=
  match p.instancePtr with
  | none => Engine.new address
  | some e => e

/-- Function `bool Engine::Initialize()`. -/
def Engine.Initialize (p : Process) (address : Nat) (windowOk : Bool)
    (env : GraphicsCreation) : Bool × Process :=
  let e := p.ensureInstance address
  -- `instance->window.Initialize()`
  let e1 : Engine := { e with window := { e.window with initialized := windowOk } }
  let calls1 := p.calls ++ [.windowInitialize windowOk]
  if B_FAILED windowOk then
    (false, { instancePtr := some e1, calls := calls1 })
  else
    -- `instance->graphics.Initialize()`
    let r := e1.graphics.Initialize env
    let e2 : Engine := { e1 with graphics := r.2.1 }
    let calls2 := calls1 ++ [.graphicsInitialize r.1] ++ r.2.2
    if B_FAILED r.1 then
      (false, { instancePtr := some e2, calls := calls2 })
    else
      (true, { instancePtr := some e2, calls := calls2 })

/-- Function `void Engine::Update()`. -/
def Engine.Update (p : Process) : Outcome Process :=
  match p.instancePtr with
  | none => .crash
  | some _ => .returned { p with calls := p.calls ++ [.windowUpdate] }

/-- Function `void Engine::Finalize()`: `instance->graphics.WaitForPreviousFrame();`, the
statement `delete instance;` being commented out. -/
def Engine.Finalize (p : Process) (gpu : Gpu) : Outcome Process :=
  match p.instancePtr with
  | none => .crash
  | some e =>
    (e.graphics.WaitForPreviousFrame gpu).bind fun r =>
      .returned
        { instancePtr := some { e with graphics := r.1 }
          calls := p.calls ++ [.graphicsWaitForPreviousFrame] ++ r.2 }

/-- Function `bool Engine::IsClosedWindow()`, the window answering `closed`. -/
def Engine.IsClosedWindow (p : Process) (closed : Bool) : Outcome (Bool × Process) :=
  match p.instancePtr with
  | none => .crash
  | some _ => .returned (closed, { p with calls := p.calls ++ [.windowIsClosed] })

/-- Function `void Engine::SetWindowSize(int width_size, int height_size)`. -/
def Engine.SetWindowSize (p : Process) (address : Nat) (width_size height_size : Int) :
    Process :=
  let e := p.ensureInstance address
  { instancePtr :=
      some { e with window := { e.window with width := width_size, height := height_size } }
    calls := p.calls ++ [.windowSetWindowSize width_size height_size] }

/-- Function `void Engine::ClearScreen()`. -/
def Engine.ClearScreen (p : Process) : Outcome Process :=
  match p.instancePtr with
  | none => .crash
  | some e =>
    e.graphics.ClearScreen.bind fun r =>
      .returned
        { instancePtr := some { e with graphics := r.1 }
          calls := p.calls ++ [.graphicsClearScreen] ++ r.2 }

/-- Function `void Engine::ScreenFlip()`: `instance->graphics.ScreenFlip();` followed by
`instance->graphics.WaitForPreviousFrame();`. The first GPU answer serves the
wait inside `Graphics::ScreenFlip`, the second the wait the engine adds. -/
def Engine.ScreenFlip (p : Process) (gpu : Gpu × Gpu) : Outcome Process :=
  match p.instancePtr with
  | none => .crash
  | some e =>
    (e.graphics.ScreenFlip gpu.1).bind fun r1 =>
      (r1.1.WaitForPreviousFrame gpu.2).bind fun r2 =>
        .returned
          { instancePtr := some { e with graphics := r2.1 }
            calls := p.calls ++ [.graphicsScreenFlip] ++ r1.2
                      ++ [.graphicsWaitForPreviousFrame] ++ r2.2 }

/-- Sequential calls of `Engine::ScreenFlip`, one pair of GPU answers for each call. -/
def Engine.ScreenFlips (p : Process) : List (Gpu × Gpu) → Outcome Process
  | [] => .returned p
  | gpu :: rest => (Engine.ScreenFlip p gpu).bind fun p1 => Engine.ScreenFlips p1 rest

/-- The fence's local counter of the engine instance, if there is an instance. -/
def Process.fenceValue (p : Process) : Option Nat :=
  p.instancePtr.map fun e => e.graphics.fence.fenceValue

/-- The controller's `frameIndex` of the engine instance, if there is an instance. -/
def Process.frameIndex (p : Process) : Option Nat :=
  p.instancePtr.map fun e => e.graphics.frameIndex

/-- A call of one function of the library surface, with what the outside world
answers during it. -/
inductive EngineCall where
  /-- A call of `Engine::Initialize`. -/
  | Initialize (address : Nat) (windowOk : Bool) (env : GraphicsCreation)
  /-- A call of `Engine::SetWindowSize`. -/
  | SetWindowSize (address : Nat) (width_size height_size : Int)
  /-- A call of `Engine::Update`. -/
  | Update
  /-- A call of `Engine::IsClosedWindow`. -/
  | IsClosedWindow (closed : Bool)
  /-- A call of `Engine::ClearScreen`. -/
  | ClearScreen
  /-- A call of `Engine::ScreenFlip`. -/
  | ScreenFlip (gpu : Gpu × Gpu)
  /-- A call of `Engine::Finalize`. -/
  | Finalize (gpu : Gpu)

/-- The process after one call of the library surface. -/
def Process.call (p : Process) : EngineCall → Outcome Process
  | .Initialize address windowOk env => .returned (Engine.Initialize p address windowOk env).2
  | .SetWindowSize address w h => .returned (Engine.SetWindowSize p address w h)
  | .Update => Engine.Update p
  | .IsClosedWindow closed => (Engine.IsClosedWindow p closed).bind fun r => .returned r.2
  | .ClearScreen => Engine.ClearScreen p
  | .ScreenFlip gpu => Engine.ScreenFlip p gpu
  | .Finalize gpu => Engine.Finalize p gpu

/-- The process after a sequence of calls of the library surface. -/
def Process.run (p : Process) : List EngineCall → Outcome Process
  | [] => .returned p
  | c :: rest => (p.call c).bind fun p1 => p1.run rest

/-- A GPU that has completed everything up to `completed` and wakes a waiting
thread as soon as the registered value is reached. -/
def Gpu.prompt (completed : Nat) : Gpu :=
  { completed := completed, wake := fun v => some v }

/-- A GPU whose wait event always fires eventually. -/
def Gpu.Responsive (gpu : Gpu) : Prop :=
  ∀ v, (gpu.wake v).isSome = true

/-! ## Sequences of calls on a fence -/

/-- A call of one member function of `class Fence`, with what the outside world
answers during it. -/
inductive FenceCall where
  /-- A call of `Fence::Initialize`. -/
  | Initialize (env : FenceCreation)
  /-- A call of `Fence::WaitForPreviousFrame`. -/
  | WaitForPreviousFrame (gpu : Gpu)
  /-- A call of `Fence::Finalize`. -/
  | Finalize

/-- The fence after one member-function call, and the calls that call made. -/
def Fence.call (self : Fence) : FenceCall → Outcome (Fence × List Call)
  | .Initialize env => .returned (self.Initialize env).2
  | .WaitForPreviousFrame gpu =>
    (self.WaitForPreviousFrame gpu).bind fun w => .returned (w.self, w.calls)
  | .Finalize => self.Finalize

/-- The fence after a sequence of member-function calls, and all calls made. -/
def Fence.run (self : Fence) : List FenceCall → Outcome (Fence × List Call)
  | [] => .returned (self, [])
  | c :: rest =>
    (self.call c).bind fun r =>
      (r.1.run rest).bind fun r2 => .returned (r2.1, r.2 ++ r2.2)

/-- A fence state some sequence of member-function calls produces from a freshly
constructed fence. -/
def Fence.Reachable (f : Fence) : Prop :=
  ∃ cs calls, Fence.new.run cs = .returned (f, calls)

/-- The values passed to `ID3D12CommandQueue::Signal`, in program order. -/
def signalled (calls : List Call) : List Nat :=
  calls.filterMap fun c => match c with
    | .signal v => some v
    | _ => none

/-- The member-function calls that make the local counter smaller: a wait that
starts at the largest `UINT64`, and an initialisation that creates a fence while
the counter is above 1. -/
def FenceCall.lowers (self : Fence) : FenceCall → Bool
  | .Initialize env => env.createFence.isSome && decide (1 < self.fenceValue)
  | .WaitForPreviousFrame _ => decide (self.fenceValue = UINT64_MAX)
  | .Finalize => false

/-- A fence creation in which both the fence and the event are created. -/
def FenceCreation.ok : FenceCreation :=
  { createFence := some 1, createEvent := some 2 }

/-- The address of the engine instance: `none` while `Engine::instance` is null. -/
def Process.address (p : Process) : Option Nat :=
  p.instancePtr.map fun e => e.address

/-- An engine whose instance exists and whose graphics controller has its swap
chain and its native fence, the local counter being a `UINT64`. -/
def Process.Initialised (p : Process) : Bool :=
  match p.instancePtr with
  | none => false
  | some e =>
    e.graphics.swapChain.isSome && e.graphics.fence.fence.isSome &&
      decide (e.graphics.fence.fenceValue < UINT64_RANGE)

/-- A graphics creation in which every step succeeds. -/
def GraphicsCreation.ok : GraphicsCreation :=
  { device := true, swapChain := true, pipeline := true, fence := FenceCreation.ok }

/-- A process state some sequence of library calls produces from program start. -/
def Process.Reachable (p : Process) : Prop :=
  ∃ cs, Process.start.run cs = .returned p

/-- The buffer index and the swap chain of the engine instance, if there is an
instance. -/
def Process.frame (p : Process) : Option (Nat × Option SwapChain) :=
  p.instancePtr.map fun e => (e.graphics.frameIndex, e.graphics.swapChain)

/-- The frame controller's buffer index is below `frameCount`, and so is the
index its swap chain reports, the swap chain having `frameCount` buffers. -/
def Graphics.FrameInRange (g : Graphics) : Prop :=
  g.frameIndex < Graphics.frameCount ∧
  ∀ sc, g.swapChain = some sc →
    sc.bufferCount = Graphics.frameCount ∧ sc.current < Graphics.frameCount

/-- The engine after a successful `Engine::Initialize` at program start. -/
def Process.sampleInitialised : Process :=
  (Engine.Initialize Process.start 4096 true GraphicsCreation.ok).2

/-- The engine `sampleInitialised` after a first `Engine::ScreenFlip`. -/
def Process.sampleFlipped : Process :=
  (Engine.ScreenFlip Process.sampleInitialised
    (Gpu.prompt 0, Gpu.prompt 1)).toOption.getD Process.start

/-- The engine `sampleFlipped` after `Engine::Update` and `Engine::ClearScreen`. -/
def Process.sampleCleared : Process :=
  (Process.sampleFlipped.run
    [EngineCall.Update, EngineCall.ClearScreen]).toOption.getD Process.start

/-- The engine `sampleCleared` after a second `Engine::ScreenFlip`. -/
def Process.sampleFlippedTwice : Process :=
  (Engine.ScreenFlip Process.sampleCleared
    (Gpu.prompt 2, Gpu.prompt 3)).toOption.getD Process.start

/-- The library calls that leave the frame controller's buffer index and swap
chain alone: every call but `Initialize` and `ScreenFlip`. -/
def EngineCall.keepsFrame : EngineCall → Bool
  | .Initialize _ _ _ => false
  | .ScreenFlip _ => false
  | _ => true

/-! ## Fence: initialisation -/

/-- C3: `Fence::Initialize` returns true exactly when both the fence creation and
the event creation succeed; when it returns true the fence was created with
completion value 0 as the first call and `fenceValue` is 1; when the fence
creation fails it returns false, creates no event, leaves `fenceValue` as it
was and makes no signal or submission; and no outcome makes a signal or a
submission. -/
theorem Fence_Initialize_contract (self : Fence) (env : FenceCreation) :
    ((self.Initialize env).1 = true ↔
      env.createFence.isSome = true ∧ env.createEvent.isSome = true) ∧
    ((self.Initialize env).1 = true →
      (self.Initialize env).2.2.head? = some (Call.createFence 0 true) ∧
      (self.Initialize env).2.1.fenceValue = 1) ∧
    (env.createFence = none →
      (self.Initialize env).1 = false ∧
      (self.Initialize env).2.2.any Call.isCreateEvent = false ∧
      (self.Initialize env).2.1.fenceValue = self.fenceValue ∧
      (self.Initialize env).2.2.any Call.isSubmission = false) ∧
    (self.Initialize env).2.2.any Call.isSubmission = false := by
  obtain ⟨cf, ce⟩ := env
  cases cf <;> cases ce <;>
    simp [Fence.Initialize, Call.isCreateEvent, Call.isSubmission]

/-- C3, at a fence on which creation of the fence fails and at one on which both
creations succeed. -/
theorem Fence_Initialize_contract_witness :
    ((Fence.new.Initialize FenceCreation.ok).1 = true ∧
      (Fence.new.Initialize FenceCreation.ok).2.1.fenceValue = 1) ∧
    ((Fence.new.Initialize { createFence := none, createEvent := some 2 }).1 = false ∧
      (Fence.new.Initialize { createFence := none, createEvent := some 2 }).2.1.fenceValue
        = 0) :=
  ⟨⟨by decide,
    ((Fence_Initialize_contract Fence.new FenceCreation.ok).2.1 (by decide)).2⟩,
   ⟨((Fence_Initialize_contract Fence.new
        { createFence := none, createEvent := some 2 }).2.2.1 rfl).1,
    ((Fence_Initialize_contract Fence.new
        { createFence := none, createEvent := some 2 }).2.2.1 rfl).2.2.1⟩⟩

/-! ## Fence: waiting for the previous frame -/

/-- C2: when the wait event fires only once the completion value has reached the
registered value, a `Fence::WaitForPreviousFrame` that returns has observed a
completion value at least the value `fenceValue` held at entry, which is the
value it signalled; when the completion value read at the check is already
that large, the call returns without registering the event or waiting; and
when it is smaller, the call registers the event for that value and waits,
returning when the event fires and blocking for ever when it never does. -/
theorem Fence_WaitForPreviousFrame_returns_after_completion (self : Fence) (gpu : Gpu)
    (hgpu : ∀ v c, gpu.wake v = some c → v ≤ c) :
    (∀ w, self.WaitForPreviousFrame gpu = .returned w →
      signalled w.calls = [self.fenceValue] ∧ self.fenceValue ≤ w.completedAtReturn) ∧
    (self.fenceValue ≤ gpu.completed → self.fence.isSome = true →
      ∃ w, self.WaitForPreviousFrame gpu = .returned w ∧
        w.calls.any Call.isWait = false ∧ self.fenceValue ≤ w.completedAtReturn) ∧
    (gpu.completed < self.fenceValue → self.fence.isSome = true →
      (gpu.wake self.fenceValue = none → self.WaitForPreviousFrame gpu = .hang) ∧
      (∀ c, gpu.wake self.fenceValue = some c →
        ∃ w, self.WaitForPreviousFrame gpu = .returned w ∧
          w.calls = [.signal self.fenceValue, .getCompletedValue gpu.completed,
            .setEventOnCompletion self.fenceValue, .waitForSingleObject] ∧
          w.completedAtReturn = c)) := by
  refine ⟨?_, ?_, ?_⟩
  · intro w hw
    unfold Fence.WaitForPreviousFrame at hw
    cases hf : self.fence with
    | none => simp [hf] at hw
    | some h =>
      simp only [hf] at hw
      by_cases hlt : gpu.completed < self.fenceValue
      · simp only [hlt, if_true] at hw
        cases hwake : gpu.wake self.fenceValue with
        | none => simp [hwake] at hw
        | some c =>
          simp only [hwake, Outcome.returned.injEq] at hw
          subst hw
          exact ⟨by simp [signalled], hgpu _ _ hwake⟩
      · simp only [hlt, if_false, Outcome.returned.injEq] at hw
        subst hw
        exact ⟨by simp [signalled], Nat.le_of_not_lt hlt⟩
  · intro hle hf
    obtain ⟨h, hf⟩ := Option.isSome_iff_exists.mp hf
    have hlt : ¬ gpu.completed < self.fenceValue := Nat.not_lt.mpr hle
    refine ⟨{ self := { self with fenceValue := (self.fenceValue + 1) % UINT64_RANGE }
              calls := [.signal self.fenceValue, .getCompletedValue gpu.completed]
              completedAtReturn := gpu.completed }, ?_, ?_, ?_⟩
    · unfold Fence.WaitForPreviousFrame
      simp only [hf, hlt, if_false]
    · simp [Call.isWait]
    · exact hle
  · intro hlt hf
    obtain ⟨h, hf⟩ := Option.isSome_iff_exists.mp hf
    constructor
    · intro hwake
      unfold Fence.WaitForPreviousFrame
      simp only [hf, hlt, if_true, hwake]
    · intro c hwake
      refine ⟨{ self := { self with fenceValue := (self.fenceValue + 1) % UINT64_RANGE }
                calls := [.signal self.fenceValue, .getCompletedValue gpu.completed,
                  .setEventOnCompletion self.fenceValue, .waitForSingleObject]
                completedAtReturn := c }, ?_, rfl, rfl⟩
      unfold Fence.WaitForPreviousFrame
      simp only [hf, hlt, if_true, hwake]

/-- C2, at a freshly initialised fence whose GPU has completed nothing yet and
fires the event when the registered value is reached. -/
theorem Fence_WaitForPreviousFrame_returns_after_completion_witness :
    (∀ v c, (Gpu.prompt 0).wake v = some c → v ≤ c) ∧
    signalled [Call.signal 1, Call.getCompletedValue 0, Call.setEventOnCompletion 1,
        Call.waitForSingleObject]
      = [(Fence.new.Initialize FenceCreation.ok).2.1.fenceValue] ∧
    (Fence.new.Initialize FenceCreation.ok).2.1.fenceValue ≤ 1 :=
  ⟨fun v c h => by simp [Gpu.prompt] at h; omega,
   (Fence_WaitForPreviousFrame_returns_after_completion
      (Fence.new.Initialize FenceCreation.ok).2.1 (Gpu.prompt 0)
      (fun v c h => by simp [Gpu.prompt] at h; omega)).1
      { self := { fence := some 1, fenceEvent := some 2, fenceValue := 2 }
        calls := [Call.signal 1, Call.getCompletedValue 0, Call.setEventOnCompletion 1,
          Call.waitForSingleObject]
        completedAtReturn := 1 }
      (by decide)⟩

/-! ## Fence: release -/

/-- C4: on an initialised fence, two calls of `Fence::Finalize` make two
`Release` calls on the native fence, where one call of `Fence::Finalize` makes
one: the second call releases the handle again. Destroying the fence after one
`Fence::Finalize` releases it twice more, the null test of the destructor
notwithstanding, and destroying an initialised fence releases it twice. -/
theorem Fence_Finalize_twice_releases_twice :
    ((Fence.new.Initialize FenceCreation.ok).2.1.run
        [FenceCall.Finalize, FenceCall.Finalize]).toOption.map (fun r => releaseCount r.2)
      = some 2 ∧
    ((Fence.new.Initialize FenceCreation.ok).2.1.run
        [FenceCall.Finalize]).toOption.map (fun r => releaseCount r.2)
      = some 1 ∧
    ((Fence.new.Initialize FenceCreation.ok).2.1.run
        [FenceCall.Finalize, FenceCall.Finalize]).toOption.map (fun r => r.2)
      = some [Call.release 1, Call.release 1] ∧
    ((Fence.new.Initialize FenceCreation.ok).2.1.run
        [FenceCall.Finalize]).toOption.map (fun r => r.2 ++ r.1.destructor)
      = some [Call.release 1, Call.release 1, Call.release 1] ∧
    (Fence.new.Initialize FenceCreation.ok).2.1.destructor
      = [Call.release 1, Call.release 1] := by
  decide

/-! ## Fence: the local counter over sequences of calls -/

/-- What a returning `Fence::WaitForPreviousFrame` has done to the object and which
calls it has made. -/
theorem Fence.WaitForPreviousFrame_returned {self : Fence} {gpu : Gpu} {w : Waited}
    (hw : self.WaitForPreviousFrame gpu = .returned w) :
    w.self = { self with fenceValue := (self.fenceValue + 1) % UINT64_RANGE } ∧
    signalled w.calls = [self.fenceValue] ∧ releaseCount w.calls = 0 := by
  unfold Fence.WaitForPreviousFrame at hw
  cases hf : self.fence with
  | none => simp [hf] at hw
  | some h =>
    simp only [hf] at hw
    by_cases hlt : gpu.completed < self.fenceValue
    · simp only [hlt, if_true] at hw
      cases hwake : gpu.wake self.fenceValue with
      | none => simp [hwake] at hw
      | some c =>
        simp only [hwake, Outcome.returned.injEq] at hw
        subst hw
        simp [signalled, releaseCount]
    · simp only [hlt, if_false, Outcome.returned.injEq] at hw
      subst hw
      simp [signalled, releaseCount]

/-- On a fence with a native fence, a responsive GPU lets
`Fence::WaitForPreviousFrame` return. -/
theorem Fence.WaitForPreviousFrame_returns {self : Fence} {gpu : Gpu}
    (hf : self.fence.isSome = true) (hgpu : gpu.Responsive) :
    ∃ w, self.WaitForPreviousFrame gpu = .returned w := by
  obtain ⟨h, hf⟩ := Option.isSome_iff_exists.mp hf
  obtain ⟨c, hc⟩ := Option.isSome_iff_exists.mp (hgpu self.fenceValue)
  unfold Fence.WaitForPreviousFrame
  by_cases hlt : gpu.completed < self.fenceValue
  · simp only [hf, hlt, if_true, hc]
    exact ⟨_, rfl⟩
  · simp only [hf, hlt, if_false]
    exact ⟨_, rfl⟩

/-- The counter after any returning member-function call is a `UINT64` when it
was one before. -/
theorem Fence.call_fenceValue_lt {self : Fence} {c : FenceCall} {r : Fence × List Call}
    (hlt : self.fenceValue < UINT64_RANGE) (hc : self.call c = .returned r) :
    r.1.fenceValue < UINT64_RANGE := by
  cases c with
  | Initialize env =>
    simp only [Fence.call, Outcome.returned.injEq] at hc
    subst hc
    obtain ⟨cf, ce⟩ := env
    cases cf <;> cases ce <;> simp [Fence.Initialize, UINT64_RANGE, hlt] <;>
      simpa [UINT64_RANGE] using hlt
  | WaitForPreviousFrame gpu =>
    simp only [Fence.call] at hc
    cases hw : self.WaitForPreviousFrame gpu with
    | hang => simp [hw, Outcome.bind] at hc
    | crash => simp [hw, Outcome.bind] at hc
    | returned w =>
      simp only [hw, Outcome.bind, Outcome.returned.injEq] at hc
      subst hc
      rw [(Fence.WaitForPreviousFrame_returned hw).1]
      exact Nat.mod_lt _ (by simp [UINT64_RANGE])
  | Finalize =>
    simp only [Fence.call, Fence.Finalize] at hc
    cases hf : self.fence with
    | none => simp [hf] at hc
    | some h =>
      simp only [hf, Outcome.returned.injEq] at hc
      subst hc
      exact hlt

/-- The counter stays a `UINT64` along any returning sequence of calls. -/
theorem Fence.run_fenceValue_lt (cs : List FenceCall) :
    ∀ (self : Fence) (r : Fence × List Call), self.fenceValue < UINT64_RANGE →
      self.run cs = .returned r → r.1.fenceValue < UINT64_RANGE := by
  induction cs with
  | nil =>
    intro self r hlt hr
    simp only [Fence.run, Outcome.returned.injEq] at hr
    subst hr
    exact hlt
  | cons c rest ih =>
    intro self r hlt hr
    simp only [Fence.run] at hr
    cases hc : self.call c with
    | hang => simp [hc, Outcome.bind] at hr
    | crash => simp [hc, Outcome.bind] at hr
    | returned r1 =>
      simp only [hc, Outcome.bind] at hr
      cases hrest : r1.1.run rest with
      | hang => simp [hrest] at hr
      | crash => simp [hrest] at hr
      | returned r2 =>
        simp only [hrest, Outcome.returned.injEq] at hr
        subst hr
        exact ih r1.1 r2 (Fence.call_fenceValue_lt hlt hc) hrest

/-- The counter of a reachable fence is a `UINT64`. -/
theorem Fence.Reachable.fenceValue_lt {f : Fence} (h : f.Reachable) :
    f.fenceValue < UINT64_RANGE := by
  obtain ⟨cs, calls, hrun⟩ := h
  exact Fence.run_fenceValue_lt cs Fence.new (f, calls) (by decide) hrun

/-- A run of waits on a fence with a native fence, every GPU answer responsive:
it returns, keeps both handles, advances the counter by the number of waits
modulo `2 ^ 64` and signals the successive counter values. -/
theorem Fence.run_waits (gpus : List Gpu) :
    ∀ (self : Fence), self.fence.isSome = true → self.fenceValue < UINT64_RANGE →
      (∀ g ∈ gpus, g.Responsive) →
      ∃ r, self.run (gpus.map FenceCall.WaitForPreviousFrame) = .returned r ∧
        r.1.fence = self.fence ∧ r.1.fenceEvent = self.fenceEvent ∧
        r.1.fenceValue = (self.fenceValue + gpus.length) % UINT64_RANGE ∧
        signalled r.2 =
          (List.range gpus.length).map (fun i => (self.fenceValue + i) % UINT64_RANGE) ∧
        releaseCount r.2 = 0 := by
  induction gpus with
  | nil =>
    intro self _ hlt _
    exact ⟨(self, []), rfl, rfl, rfl, by simp [Nat.mod_eq_of_lt hlt],
      by simp [signalled], by simp [releaseCount]⟩
  | cons g rest ih =>
    intro self hf hlt hresp
    obtain ⟨w, hw⟩ := Fence.WaitForPreviousFrame_returns hf
      (hresp g (List.mem_cons_self _ _))
    obtain ⟨hself, hsig, hrel⟩ := Fence.WaitForPreviousFrame_returned hw
    have hf1 : w.self.fence.isSome = true := by rw [hself]; exact hf
    have hlt1 : w.self.fenceValue < UINT64_RANGE := by
      rw [hself]; exact Nat.mod_lt _ (by simp [UINT64_RANGE])
    obtain ⟨r, hr, hfence, hevent, hval, hsigs, hrels⟩ :=
      ih w.self hf1 hlt1 (fun g' hg' => hresp g' (List.mem_cons_of_mem _ hg'))
    refine ⟨(r.1, w.calls ++ r.2), ?_, ?_, ?_, ?_, ?_, ?_⟩
    · simp only [List.map_cons, Fence.run, Fence.call, hw, Outcome.bind, hr]
    · rw [hfence, hself]
    · rw [hevent, hself]
    · rw [hval, hself]
      simp only [List.length_cons]
      rw [Nat.mod_add_mod]
      congr 1
      omega
    · have happ : signalled (w.calls ++ r.2) = signalled w.calls ++ signalled r.2 := by
        simp [signalled, List.filterMap_append]
      rw [happ, hsig, hsigs, hself]
      simp only [List.length_cons, List.range_succ_eq_map, List.map_cons, List.map_map,
        Nat.add_zero, Nat.mod_eq_of_lt hlt, List.singleton_append]
      congr 1
      apply List.map_congr_left
      intro i _
      simp only [Function.comp]
      rw [Nat.mod_add_mod]
      congr 1
      omega
    · have happ : releaseCount (w.calls ++ r.2) = releaseCount w.calls + releaseCount r.2 := by
        simp [releaseCount, List.countP_append]
      rw [happ, hrel, hrels]

/-- The fence a successful `Fence::Initialize` leaves has a native fence and the
counter 1. -/
theorem Fence.Initialize_true {self : Fence} {env : FenceCreation}
    (h : (self.Initialize env).1 = true) :
    (self.Initialize env).2.1.fence.isSome = true ∧
    (self.Initialize env).2.1.fenceValue = 1 ∧
    signalled (self.Initialize env).2.2 = [] := by
  obtain ⟨cf, ce⟩ := env
  cases cf <;> cases ce <;> simp_all [Fence.Initialize, signalled]

/-- A successful initialisation of a fresh fence followed by waits, every GPU
answer responsive: the run returns with both handles set and the counter at
one plus the number of waits, modulo `2 ^ 64`, having signalled the successive
counter values. -/
theorem Fence.run_Initialize_waits (gpus : List Gpu) (hresp : ∀ g ∈ gpus, g.Responsive) :
    ∃ r, Fence.new.run (FenceCall.Initialize FenceCreation.ok ::
        gpus.map FenceCall.WaitForPreviousFrame) = .returned r ∧
      r.1 = { fence := some 1, fenceEvent := some 2,
              fenceValue := (1 + gpus.length) % UINT64_RANGE } ∧
      signalled r.2 = (List.range gpus.length).map (fun i => (1 + i) % UINT64_RANGE) := by
  obtain ⟨r, hr, hfence, hevent, hval, hsig, -⟩ :=
    Fence.run_waits gpus (Fence.new.Initialize FenceCreation.ok).2.1 (by decide) (by decide)
      hresp
  refine ⟨((r.1, (Fence.new.Initialize FenceCreation.ok).2.2 ++ r.2)), ?_, ?_, ?_⟩
  rotate_left 2
  · have happ : signalled ((Fence.new.Initialize FenceCreation.ok).2.2 ++ r.2)
        = signalled r.2 := by
      simp [signalled, List.filterMap_append, Fence.Initialize, FenceCreation.ok]
    rw [happ, hsig]
    rfl
  · have hcons : ∀ (self : Fence) (c : FenceCall) (rest : List FenceCall),
        self.run (c :: rest) = (self.call c).bind fun r =>
          (r.1.run rest).bind fun r2 => .returned (r2.1, r.2 ++ r2.2) := fun _ _ _ => rfl
    rw [hcons]
    show ((Fence.new.Initialize FenceCreation.ok).2.1.run _).bind _ = _
    rw [hr]
    rfl
  · obtain ⟨⟨f, e, v⟩, calls⟩ := r
    simp only at hfence hevent hval
    rw [hfence, hevent, hval]
    rfl

/-- C5, as the code has it: for a reachable fence and a returning member-function
call, the counter afterwards is at least the counter before exactly when the
call is neither a wait that starts at the largest `UINT64` nor an
initialisation that creates a fence while the counter is above 1; a freshly
constructed fence has the counter 0. The counter after the call is: unchanged
for `Finalize` and for an `Initialize` whose fence creation fails, 1 for an
`Initialize` whose fence creation succeeds, and the successor modulo `2 ^ 64`
for `WaitForPreviousFrame`. -/
theorem Fence_fenceValue_only_lowered_by_wrap_or_reset (self : Fence) (c : FenceCall)
    (r : Fence × List Call) (hreach : self.Reachable) (hc : self.call c = .returned r) :
    (self.fenceValue ≤ r.1.fenceValue ↔ FenceCall.lowers self c = false) ∧
    Fence.new.fenceValue = 0 ∧
    (c = FenceCall.Finalize → r.1.fenceValue = self.fenceValue) ∧
    (∀ env, c = FenceCall.Initialize env → env.createFence = none →
      r.1.fenceValue = self.fenceValue) ∧
    (∀ env, c = FenceCall.Initialize env → env.createFence.isSome = true →
      r.1.fenceValue = 1) ∧
    (∀ gpu, c = FenceCall.WaitForPreviousFrame gpu →
      r.1.fenceValue = (self.fenceValue + 1) % UINT64_RANGE) := by
  have hlt : self.fenceValue < 2 ^ 64 := by
    simpa [UINT64_RANGE] using hreach.fenceValue_lt
  cases c with
  | Initialize env =>
    simp only [Fence.call, Outcome.returned.injEq] at hc
    subst hc
    refine ⟨?_, rfl, ?_, ?_, ?_, ?_⟩
    · obtain ⟨cf, ce⟩ := env
      cases cf <;> cases ce <;> simp [Fence.Initialize, FenceCall.lowers]
    · intro h
      cases h
    · intro env' h hnone
      cases h
      obtain ⟨cf, ce⟩ := env
      simp only at hnone
      subst hnone
      simp [Fence.Initialize]
    · intro env' h hsome
      cases h
      obtain ⟨cf, ce⟩ := env
      cases cf with
      | none => simp at hsome
      | some hd => cases ce <;> simp [Fence.Initialize]
    · intro gpu h
      cases h
  | WaitForPreviousFrame gpu =>
    simp only [Fence.call] at hc
    cases hw : self.WaitForPreviousFrame gpu with
    | hang => simp [hw, Outcome.bind] at hc
    | crash => simp [hw, Outcome.bind] at hc
    | returned w =>
      simp only [hw, Outcome.bind, Outcome.returned.injEq] at hc
      subst hc
      have hval : w.self.fenceValue = (self.fenceValue + 1) % UINT64_RANGE := by
        rw [(Fence.WaitForPreviousFrame_returned hw).1]
      refine ⟨?_, rfl, ?_, ?_, ?_, ?_⟩
      · simp only [hval, FenceCall.lowers, UINT64_RANGE, UINT64_MAX]
        by_cases hmax : self.fenceValue = 2 ^ 64 - 1
        · simp [hmax]
        · have h1 : self.fenceValue + 1 < 2 ^ 64 := by omega
          rw [Nat.mod_eq_of_lt h1]
          simp only [Nat.le_add_right, decide_eq_false_iff_not, true_iff]
          omega
      · intro h
        cases h
      · intro env h
        cases h
      · intro env h
        cases h
      · intro gpu' _
        exact hval
  | Finalize =>
    simp only [Fence.call, Fence.Finalize] at hc
    cases hf : self.fence with
    | none => simp [hf] at hc
    | some h =>
      simp only [hf, Outcome.returned.injEq] at hc
      subst hc
      refine ⟨by simp [FenceCall.lowers], rfl, fun _ => rfl, ?_, ?_, ?_⟩
      · intro env h
        cases h
      · intro env h
        cases h
      · intro gpu h
        cases h

/-- C5, at the first wait after a successful initialisation, where the counter
goes from 1 to 2, and at a `Finalize` after that initialisation, where it
stays at 1. -/
theorem Fence_fenceValue_only_lowered_by_wrap_or_reset_witness :
    (((Fence.new.Initialize FenceCreation.ok).2.1.fenceValue ≤ 2 ↔
        FenceCall.lowers (Fence.new.Initialize FenceCreation.ok).2.1
          (FenceCall.WaitForPreviousFrame (Gpu.prompt 0)) = false) ∧
      2 = ((Fence.new.Initialize FenceCreation.ok).2.1.fenceValue + 1) % UINT64_RANGE) ∧
    Fence.fenceValue { fence := some 1, fenceEvent := some 2, fenceValue := 1 }
      = (Fence.new.Initialize FenceCreation.ok).2.1.fenceValue :=
  ⟨⟨(Fence_fenceValue_only_lowered_by_wrap_or_reset
      (Fence.new.Initialize FenceCreation.ok).2.1
      (FenceCall.WaitForPreviousFrame (Gpu.prompt 0))
      ({ fence := some 1, fenceEvent := some 2, fenceValue := 2 },
        [Call.signal 1, Call.getCompletedValue 0, Call.setEventOnCompletion 1,
          Call.waitForSingleObject])
      ⟨[FenceCall.Initialize FenceCreation.ok],
        [Call.createFence 0 true, Call.createEvent true], by decide⟩
      (by decide)).1,
    (Fence_fenceValue_only_lowered_by_wrap_or_reset
      (Fence.new.Initialize FenceCreation.ok).2.1
      (FenceCall.WaitForPreviousFrame (Gpu.prompt 0))
      ({ fence := some 1, fenceEvent := some 2, fenceValue := 2 },
        [Call.signal 1, Call.getCompletedValue 0, Call.setEventOnCompletion 1,
          Call.waitForSingleObject])
      ⟨[FenceCall.Initialize FenceCreation.ok],
        [Call.createFence 0 true, Call.createEvent true], by decide⟩
      (by decide)).2.2.2.2.2 (Gpu.prompt 0) rfl⟩,
   (Fence_fenceValue_only_lowered_by_wrap_or_reset
      (Fence.new.Initialize FenceCreation.ok).2.1 FenceCall.Finalize
      ({ fence := some 1, fenceEvent := some 2, fenceValue := 1 }, [Call.release 1])
      ⟨[FenceCall.Initialize FenceCreation.ok],
        [Call.createFence 0 true, Call.createEvent true], by decide⟩
      (by decide)).2.2.1 rfl⟩

/-- C5 fails in two places. After a successful initialisation and two waits the
counter is 3, and a further successful initialisation leaves it at 1. The
state with the counter at the largest `UINT64` is reachable, and a wait from
there leaves the counter at 0. -/
theorem Fence_fenceValue_decreases :
    ((Fence.new.run [FenceCall.Initialize FenceCreation.ok,
        FenceCall.WaitForPreviousFrame (Gpu.prompt 0),
        FenceCall.WaitForPreviousFrame (Gpu.prompt 1)]).toOption.map
          (fun r => r.1.fenceValue) = some 3 ∧
     (Fence.new.run [FenceCall.Initialize FenceCreation.ok,
        FenceCall.WaitForPreviousFrame (Gpu.prompt 0),
        FenceCall.WaitForPreviousFrame (Gpu.prompt 1),
        FenceCall.Initialize FenceCreation.ok]).toOption.map
          (fun r => r.1.fenceValue) = some 1) ∧
    (Fence.Reachable { fence := some 1, fenceEvent := some 2, fenceValue := UINT64_MAX } ∧
     (Fence.call { fence := some 1, fenceEvent := some 2, fenceValue := UINT64_MAX }
        (FenceCall.WaitForPreviousFrame (Gpu.prompt UINT64_MAX))).toOption.map
          (fun r => r.1.fenceValue) = some 0) := by
  refine ⟨⟨by decide, by decide⟩, ?_, by decide⟩
  obtain ⟨r, hr, hr1, hsig⟩ := Fence.run_Initialize_waits
    (List.replicate (UINT64_MAX - 1) (Gpu.prompt 0))
    (fun g hg => by
      rw [List.eq_of_mem_replicate hg]
      intro v
      rfl)
  rw [List.length_replicate] at hr1
  have hv : (1 + (UINT64_MAX - 1)) % UINT64_RANGE = UINT64_MAX := by
    norm_num [UINT64_MAX, UINT64_RANGE]
  rw [hv] at hr1
  exact ⟨_, r.2, by rw [hr, ← hr1]⟩

/-- C10, as the code has it. A returning `Fence::WaitForPreviousFrame` signals the
value `fenceValue` held at entry and leaves `fenceValue` at that value plus 1
modulo `2 ^ 64`. After a successful `Fence::Initialize`, a run of `k` waits
with responsive GPU answers returns; its `i`-th signal (counted from 1) is
`i` modulo `2 ^ 64` and it leaves `fenceValue` at `k + 1` modulo `2 ^ 64`. For
`k` up to `2 ^ 64 - 1` the signals are exactly `1, …, k` and strictly
increasing, for `k` below `2 ^ 64 - 1` the counter is exactly `k + 1`, and
for `k` up to `2 ^ 64` no signalled value repeats. -/
theorem Fence_WaitForPreviousFrame_signal_sequence :
    (∀ (self : Fence) (gpu : Gpu) (w : Waited),
      self.WaitForPreviousFrame gpu = .returned w →
      signalled w.calls = [self.fenceValue] ∧
      w.self.fenceValue = (self.fenceValue + 1) % UINT64_RANGE) ∧
    (∀ (self : Fence) (env : FenceCreation) (gpus : List Gpu),
      (self.Initialize env).1 = true → (∀ g ∈ gpus, g.Responsive) →
      ∃ r, (self.Initialize env).2.1.run (gpus.map FenceCall.WaitForPreviousFrame)
          = .returned r ∧
        signalled r.2 = (List.range gpus.length).map (fun i => (i + 1) % UINT64_RANGE) ∧
        r.1.fenceValue = (gpus.length + 1) % UINT64_RANGE ∧
        (gpus.length ≤ UINT64_MAX →
          signalled r.2 = (List.range gpus.length).map (fun i => i + 1) ∧
          (signalled r.2).Pairwise (fun a b => a < b)) ∧
        (gpus.length < UINT64_MAX → r.1.fenceValue = gpus.length + 1) ∧
        (gpus.length ≤ UINT64_RANGE → (signalled r.2).Nodup)) := by
  constructor
  · intro self gpu w hw
    obtain ⟨hself, hsig, -⟩ := Fence.WaitForPreviousFrame_returned hw
    exact ⟨hsig, by rw [hself]⟩
  · intro self env gpus hinit hresp
    obtain ⟨hf, hone, -⟩ := Fence.Initialize_true hinit
    obtain ⟨r, hr, -, -, hval, hsig, -⟩ :=
      Fence.run_waits gpus (self.Initialize env).2.1 hf
        (by rw [hone]; decide) hresp
    rw [hone] at hval hsig
    have hsig1 : signalled r.2
        = (List.range gpus.length).map (fun i => (i + 1) % UINT64_RANGE) := by
      rw [hsig]
      apply List.map_congr_left
      intro i _
      rw [Nat.add_comm]
    have hval1 : r.1.fenceValue = (gpus.length + 1) % UINT64_RANGE := by
      rw [hval, Nat.add_comm]
    refine ⟨r, hr, hsig1, hval1, ?_, ?_, ?_⟩
    · intro hk
      have hexact : signalled r.2 = (List.range gpus.length).map (fun i => i + 1) := by
        rw [hsig1]
        apply List.map_congr_left
        intro i hi
        have hi1 : i < gpus.length := List.mem_range.mp hi
        apply Nat.mod_eq_of_lt
        simp only [UINT64_MAX] at hk
        simp only [UINT64_RANGE]
        omega
      refine ⟨hexact, ?_⟩
      rw [hexact, List.pairwise_map]
      exact (List.pairwise_lt_range _).imp (fun h => by omega)
    · intro hk
      rw [hval1]
      apply Nat.mod_eq_of_lt
      simp only [UINT64_MAX] at hk
      simp only [UINT64_RANGE]
      omega
    · intro hk
      rw [hsig1]
      refine List.Nodup.map_on ?_ (List.nodup_range _)
      intro i hi j hj hij
      have hi1 : i < gpus.length := List.mem_range.mp hi
      have hj1 : j < gpus.length := List.mem_range.mp hj
      simp only [UINT64_RANGE] at hk hij
      omega

/-- C10, at three waits after a successful initialisation of a fresh fence: the
signals are 1, 2, 3 and the counter ends at 4. -/
theorem Fence_WaitForPreviousFrame_signal_sequence_witness :
    ((Fence.new.Initialize FenceCreation.ok).2.1.run
        ([Gpu.prompt 0, Gpu.prompt 1, Gpu.prompt 2].map
          FenceCall.WaitForPreviousFrame)).toOption.map
            (fun r => (signalled r.2, r.1.fenceValue))
      = some ([1, 2, 3], 4) := by
  obtain ⟨r, hr, -, -, hk, hv, -⟩ :=
    Fence_WaitForPreviousFrame_signal_sequence.2 Fence.new FenceCreation.ok
      [Gpu.prompt 0, Gpu.prompt 1, Gpu.prompt 2] (by decide)
      (fun g _ v => by
        have hg : g = Gpu.prompt 0 ∨ g = Gpu.prompt 1 ∨ g = Gpu.prompt 2 := by
          simp_all
        rcases hg with h | h | h <;> subst h <;> rfl)
  rw [hr, Outcome.toOption, Option.map_some', (hk (by decide)).1, hv (by decide)]
  rfl

/-- C10 fails at the call number `2 ^ 64 - 1` after a successful initialisation:
that call leaves `fenceValue` at 0 and not at `2 ^ 64`. The call after it, the
one with number `2 ^ 64`, signals 0. -/
theorem Fence_WaitForPreviousFrame_counter_wraps :
    (((Fence.new.run (FenceCall.Initialize FenceCreation.ok ::
        (List.replicate UINT64_MAX (Gpu.prompt 0)).map
          FenceCall.WaitForPreviousFrame)).toOption.map (fun r => r.1.fenceValue)
      = some 0) ∧
     (0 : Nat) ≠ UINT64_MAX + 1) ∧
    ((Fence.new.run (FenceCall.Initialize FenceCreation.ok ::
        (List.replicate UINT64_RANGE (Gpu.prompt 0)).map
          FenceCall.WaitForPreviousFrame)).toOption.map
            (fun r => (signalled r.2).getLast?)
      = some (some 0)) := by
  have hprompt : ∀ (n : Nat), ∀ g ∈ List.replicate n (Gpu.prompt 0), g.Responsive := by
    intro n g hg
    rw [List.eq_of_mem_replicate hg]
    intro v
    rfl
  refine ⟨⟨?_, by decide⟩, ?_⟩
  · obtain ⟨r, hr, hr1, -⟩ := Fence.run_Initialize_waits
      (List.replicate UINT64_MAX (Gpu.prompt 0)) (hprompt _)
    rw [List.length_replicate] at hr1
    have hv : (1 + UINT64_MAX) % UINT64_RANGE = 0 := by
      norm_num [UINT64_MAX, UINT64_RANGE]
    rw [hv] at hr1
    rw [hr, Outcome.toOption, Option.map_some', hr1]
  · obtain ⟨r, hr, -, hsig⟩ := Fence.run_Initialize_waits
      (List.replicate UINT64_RANGE (Gpu.prompt 0)) (hprompt _)
    rw [List.length_replicate] at hsig
    rw [hr, Outcome.toOption, Option.map_some', hsig, List.getLast?_map,
      List.getLast?_range]
    norm_num [UINT64_RANGE]

/-! ## Engine: initialisation -/

/-- A sequence of two statements returns exactly when the first returns and the
second, run on its result, returns. -/
theorem Outcome.bind_eq_returned {α β : Type} {x : Outcome α} {f : α → Outcome β} {b : β} :
    x.bind f = .returned b ↔ ∃ a, x = .returned a ∧ f a = .returned b := by
  cases x <;> simp [Outcome.bind]

/-- The address of the instance after `Engine::Initialize`: the one it had, or
the one `new` gives when there was none. -/
theorem Engine.Initialize_address (p : Process) (address : Nat) (windowOk : Bool)
    (env : GraphicsCreation) :
    (Engine.Initialize p address windowOk env).2.address
      = some (p.address.getD address) := by
  unfold Engine.Initialize
  cases hp : p.instancePtr <;>
    cases windowOk <;>
    simp [Process.address, Process.ensureInstance, hp, B_FAILED, Engine.new] <;>
    split <;> simp

/-- A returning library call on a process with an instance keeps the instance at
its address. -/
theorem Process.call_address {p p' : Process} {c : EngineCall}
    (hc : p.call c = .returned p') (hp : p.address ≠ none) : p'.address = p.address := by
  obtain ⟨e, he⟩ : ∃ e, p.instancePtr = some e := by
    cases h : p.instancePtr with
    | none => simp [Process.address, h] at hp
    | some e => exact ⟨e, rfl⟩
  have hpa : p.address = some e.address := by simp [Process.address, he]
  cases c with
  | Initialize address windowOk env =>
    simp only [Process.call, Outcome.returned.injEq] at hc
    subst hc
    rw [Engine.Initialize_address, hpa]
    rfl
  | SetWindowSize address w h =>
    simp only [Process.call, Outcome.returned.injEq] at hc
    subst hc
    simp [Engine.SetWindowSize, Process.address, Process.ensureInstance, he]
  | Update =>
    simp only [Process.call, Engine.Update, he, Outcome.returned.injEq] at hc
    subst hc
    rw [hpa]
    rfl
  | IsClosedWindow closed =>
    simp only [Process.call, Engine.IsClosedWindow, he, Outcome.bind,
      Outcome.returned.injEq] at hc
    subst hc
    rw [hpa]
    rfl
  | ClearScreen =>
    simp only [Process.call, Engine.ClearScreen, he, Outcome.bind_eq_returned] at hc
    obtain ⟨r, -, hr⟩ := hc
    simp only [Outcome.returned.injEq] at hr
    subst hr
    simp [Process.address, he]
  | ScreenFlip gpu =>
    simp only [Process.call, Engine.ScreenFlip, he, Outcome.bind_eq_returned] at hc
    obtain ⟨r1, -, r2, -, hr⟩ := hc
    simp only [Outcome.returned.injEq] at hr
    subst hr
    simp [Process.address, he]
  | Finalize gpu =>
    simp only [Process.call, Engine.Finalize, he, Outcome.bind_eq_returned] at hc
    obtain ⟨r, -, hr⟩ := hc
    simp only [Outcome.returned.injEq] at hr
    subst hr
    simp [Process.address, he]

/-- A returning sequence of library calls on a process with an instance keeps the
instance at its address. -/
theorem Process.run_address (cs : List EngineCall) :
    ∀ (p p' : Process), p.run cs = .returned p' → p.address ≠ none →
      p'.address = p.address := by
  induction cs with
  | nil =>
    intro p p' hr _
    simp only [Process.run, Outcome.returned.injEq] at hr
    rw [hr]
  | cons c rest ih =>
    intro p p' hr hp
    simp only [Process.run, Outcome.bind_eq_returned] at hr
    obtain ⟨p1, hc, hrest⟩ := hr
    have h1 : p1.address = p.address := Process.call_address hc hp
    rw [ih p1 p' hrest (by rw [h1]; exact hp), h1]

/-- C7: at program start there is no instance; `Engine::Initialize` and
`Engine::SetWindowSize` leave an instance at the address it had or, when there
was none, at the address `new` gives; and once there is an instance every
returning library call and every returning sequence of library calls leaves
the instance at that same address. -/
theorem Engine_instance_persists :
    Process.start.address = none ∧
    (∀ (p : Process) (address : Nat) (windowOk : Bool) (env : GraphicsCreation),
      (Engine.Initialize p address windowOk env).2.address
        = some (p.address.getD address)) ∧
    (∀ (p : Process) (address : Nat) (w h : Int),
      (Engine.SetWindowSize p address w h).address = some (p.address.getD address)) ∧
    (∀ (p p' : Process) (c : EngineCall),
      p.call c = .returned p' → p.address ≠ none → p'.address = p.address) ∧
    (∀ (p p' : Process) (cs : List EngineCall),
      p.run cs = .returned p' → p.address ≠ none → p'.address = p.address) := by
  refine ⟨rfl, Engine.Initialize_address, ?_, ?_, ?_⟩
  · intro p address w h
    cases hp : p.instancePtr <;>
      simp [Engine.SetWindowSize, Process.address, Process.ensureInstance, hp, Engine.new]
  · intro p p' c hc hp
    exact Process.call_address hc hp
  · intro p p' cs hr hp
    exact Process.run_address cs p p' hr hp

/-- C7, at the instance `Engine::SetWindowSize` allocates at program start: a
following `Engine::Update` finds it and leaves it at its address. -/
theorem Engine_instance_persists_witness :
    Process.address
      { instancePtr := (Engine.SetWindowSize Process.start 4096 640 480).instancePtr
        calls := [Call.windowSetWindowSize 640 480, Call.windowUpdate] }
      = (Engine.SetWindowSize Process.start 4096 640 480).address :=
  Engine_instance_persists.2.2.2.1 (Engine.SetWindowSize Process.start 4096 640 480)
    { instancePtr := (Engine.SetWindowSize Process.start 4096 640 480).instancePtr
      calls := [Call.windowSetWindowSize 640 480, Call.windowUpdate] }
    EngineCall.Update (by decide) (by decide)

/-! ## Engine: the frame cycle -/

/-- The `Release` calls of two lists of calls add up. -/
theorem releaseCount_append (a b : List Call) :
    releaseCount (a ++ b) = releaseCount a + releaseCount b := by
  simp [releaseCount, List.countP_append]

/-- What a returning `Engine::ScreenFlip` has done: the swap chain has presented
once, `frameIndex` is the index it then reports, the fence has gone through
two waits, and no `Release` call was made. -/
theorem Engine.ScreenFlip_returned {p p' : Process} {gpu : Gpu × Gpu}
    (h : Engine.ScreenFlip p gpu = .returned p') :
    ∃ e sc, p.instancePtr = some e ∧ e.graphics.swapChain = some sc ∧
      p'.instancePtr = some
        { e with graphics :=
          { frameIndex := sc.Present.current
            swapChain := some sc.Present
            fence := { e.graphics.fence with
              fenceValue :=
                ((e.graphics.fence.fenceValue + 1) % UINT64_RANGE + 1) % UINT64_RANGE } } } ∧
      releaseCount p'.calls = releaseCount p.calls := by
  unfold Engine.ScreenFlip at h
  cases he : p.instancePtr with
  | none => simp [he] at h
  | some e =>
    simp only [he, Outcome.bind_eq_returned] at h
    obtain ⟨r1, hr1, r2, hr2, hp'⟩ := h
    unfold Graphics.ScreenFlip at hr1
    cases hsc : e.graphics.swapChain with
    | none => simp [hsc] at hr1
    | some sc =>
      simp only [hsc, Outcome.bind_eq_returned] at hr1
      obtain ⟨w1, hw1, hr1⟩ := hr1
      obtain ⟨hs1, -, hrel1⟩ := Fence.WaitForPreviousFrame_returned hw1
      simp only [Outcome.returned.injEq] at hr1
      subst hr1
      simp only [Graphics.WaitForPreviousFrame, Outcome.bind_eq_returned] at hr2
      obtain ⟨w2, hw2, hr2⟩ := hr2
      obtain ⟨hs2, -, hrel2⟩ := Fence.WaitForPreviousFrame_returned hw2
      simp only [Outcome.returned.injEq] at hr2 hp'
      subst hr2
      subst hp'
      refine ⟨e, sc, rfl, hsc, ?_, ?_⟩
      · simp only [hs2, hs1]
      · have h1 : releaseCount [Call.graphicsScreenFlip] = 0 := by decide
        have h2 : releaseCount [Call.executeCommandLists, Call.present] = 0 := by decide
        have h3 : releaseCount [Call.graphicsWaitForPreviousFrame] = 0 := by decide
        simp only [releaseCount_append, h1, h2, h3, hrel1, hrel2, Nat.add_zero]

/-- What `Process.Initialised` says, spelt out. -/
theorem Process.Initialised_iff {p : Process} :
    p.Initialised = true ↔
      ∃ e, p.instancePtr = some e ∧ e.graphics.swapChain.isSome = true ∧
        e.graphics.fence.fence.isSome = true ∧
        e.graphics.fence.fenceValue < UINT64_RANGE := by
  unfold Process.Initialised
  cases p.instancePtr with
  | none => simp
  | some e => simp [and_assoc]

/-- On an initialised engine, responsive GPU answers let `Engine::ScreenFlip`
return. -/
theorem Engine.ScreenFlip_returns {p : Process} {gpu : Gpu × Gpu}
    (hp : p.Initialised = true) (hg : gpu.1.Responsive ∧ gpu.2.Responsive) :
    ∃ p', Engine.ScreenFlip p gpu = .returned p' := by
  obtain ⟨e, he, hsc, hf, -⟩ := Process.Initialised_iff.mp hp
  obtain ⟨sc, hsc⟩ := Option.isSome_iff_exists.mp hsc
  obtain ⟨w1, hw1⟩ := @Fence.WaitForPreviousFrame_returns _ gpu.1 hf hg.1
  have hf1 : w1.self.fence.isSome = true := by
    rw [(Fence.WaitForPreviousFrame_returned hw1).1]; exact hf
  obtain ⟨w2, hw2⟩ := @Fence.WaitForPreviousFrame_returns _ gpu.2 hf1 hg.2
  simp only [Engine.ScreenFlip, he, Graphics.ScreenFlip, hsc, hw1, Outcome.bind,
    Graphics.WaitForPreviousFrame, hw2]
  exact ⟨_, rfl⟩

/-- One call of `Engine::ScreenFlip` on an initialised engine, the GPU answers
being responsive: it returns, the engine stays initialised and the local
counter has advanced by 2 modulo `2 ^ 64`. -/
theorem Engine.ScreenFlip_fenceValue {p : Process} {gpu : Gpu × Gpu}
    (hp : p.Initialised = true) (hg : gpu.1.Responsive ∧ gpu.2.Responsive) :
    ∃ p', Engine.ScreenFlip p gpu = .returned p' ∧ p'.Initialised = true ∧
      p'.fenceValue = p.fenceValue.map (fun v => (v + 2) % UINT64_RANGE) := by
  obtain ⟨p', hp'⟩ := Engine.ScreenFlip_returns hp hg
  obtain ⟨e, sc, he, hsc, he', -⟩ := Engine.ScreenFlip_returned hp'
  obtain ⟨e0, he0, -, hf, hlt⟩ := Process.Initialised_iff.mp hp
  rw [he] at he0
  simp only [Option.some.injEq] at he0
  subst he0
  refine ⟨p', hp', Process.Initialised_iff.mpr
    ⟨_, he', rfl, hf, Nat.mod_lt _ (by simp [UINT64_RANGE])⟩, ?_⟩
  simp only [Process.fenceValue, he', he, Option.map_some', Option.some.injEq]
  rw [Nat.mod_add_mod]

/-- A successful `Engine::Initialize` leaves an initialised engine whose local
counter is 1. -/
theorem Engine.Initialize_true_initialised {p : Process} {address : Nat} {windowOk : Bool}
    {env : GraphicsCreation} (h : (Engine.Initialize p address windowOk env).1 = true) :
    (Engine.Initialize p address windowOk env).2.Initialised = true ∧
    (Engine.Initialize p address windowOk env).2.fenceValue = some 1 := by
  obtain ⟨d, sw, pl, cf, ce⟩ := env
  cases windowOk <;> cases d <;> cases sw <;> cases pl <;> cases cf <;> cases ce <;>
    simp_all [Engine.Initialize, B_FAILED, Graphics.Initialize, Fence.Initialize,
      Process.Initialised, Process.fenceValue, UINT64_RANGE]

/-- Sequential calls of `Engine::ScreenFlip` on an initialised engine, the GPU
answers being responsive: they return, the engine stays initialised and the
local counter has advanced by twice the number of calls modulo `2 ^ 64`. -/
theorem Engine.ScreenFlips_fenceValue (gpus : List (Gpu × Gpu)) :
    ∀ (p : Process), p.Initialised = true →
      (∀ g ∈ gpus, g.1.Responsive ∧ g.2.Responsive) →
      ∃ p', Engine.ScreenFlips p gpus = .returned p' ∧ p'.Initialised = true ∧
        p'.fenceValue
          = p.fenceValue.map (fun v => (v + 2 * gpus.length) % UINT64_RANGE) := by
  induction gpus with
  | nil =>
    intro p hp _
    refine ⟨p, rfl, hp, ?_⟩
    obtain ⟨e, he, -, -, hlt⟩ := Process.Initialised_iff.mp hp
    simp [Process.fenceValue, he, Nat.mod_eq_of_lt hlt]
  | cons g rest ih =>
    intro p hp hgpu
    obtain ⟨p1, hp1, hi1, hv1⟩ :=
      Engine.ScreenFlip_fenceValue hp (hgpu g (List.mem_cons_self _ _))
    obtain ⟨p', hp', hi', hv'⟩ :=
      ih p1 hi1 (fun g' hg' => hgpu g' (List.mem_cons_of_mem _ hg'))
    refine ⟨p', ?_, hi', ?_⟩
    · simp only [Engine.ScreenFlips, hp1, Outcome.bind, hp']
    · rw [hv', hv1]
      obtain ⟨e, he, -⟩ := Process.Initialised_iff.mp hp
      simp only [Process.fenceValue, he, Option.map_some', Option.some.injEq,
        List.length_cons]
      rw [Nat.mod_add_mod]
      congr 1
      omega

/-- The local counter after `n` frames on the engine a successful
`Engine::Initialize` leaves at program start, a prompt GPU answering. -/
theorem Engine.ScreenFlips_sample (n : Nat) :
    (Engine.ScreenFlips Process.sampleInitialised
      (List.replicate n (Gpu.prompt 0, Gpu.prompt 0))).toOption.bind Process.fenceValue
      = some ((1 + 2 * n) % UINT64_RANGE) := by
  obtain ⟨p', hp', -, hv⟩ := Engine.ScreenFlips_fenceValue
    (List.replicate n (Gpu.prompt 0, Gpu.prompt 0)) Process.sampleInitialised (by decide)
    (fun g hg => by
      rw [List.eq_of_mem_replicate hg]
      exact ⟨fun _ => rfl, fun _ => rfl⟩)
  have h1 : Process.sampleInitialised.fenceValue = some 1 := by decide
  rw [hp', Outcome.toOption, Option.some_bind, hv, h1, List.length_replicate]
  rfl

/-- C1, as the code has it, `Graphics::ScreenFlip` ending with one wait on the
fence and `Engine::ScreenFlip` adding its own: on an initialised engine `N`
sequential calls of `Engine::ScreenFlip` with responsive GPU answers return,
leave the engine initialised and leave `fenceValue` advanced by 2 per call,
by `2 * N` in total, modulo `2 ^ 64`. -/
theorem Engine_ScreenFlip_advances_fenceValue_by_two (p : Process) (gpus : List (Gpu × Gpu))
    (hp : p.Initialised = true) (hgpu : ∀ g ∈ gpus, g.1.Responsive ∧ g.2.Responsive) :
    ∃ p', Engine.ScreenFlips p gpus = .returned p' ∧ p'.Initialised = true ∧
      p'.fenceValue = p.fenceValue.map (fun v => (v + 2 * gpus.length) % UINT64_RANGE) :=
  Engine.ScreenFlips_fenceValue gpus p hp hgpu

/-- C1, at two frames after a successful `Engine::Initialize` at program start:
the counter goes from 1 to 5. -/
theorem Engine_ScreenFlip_advances_fenceValue_by_two_witness :
    Process.sampleInitialised.Initialised = true ∧
    Process.sampleInitialised.fenceValue = some 1 ∧
    (Engine.ScreenFlips Process.sampleInitialised
      [(Gpu.prompt 0, Gpu.prompt 1), (Gpu.prompt 2, Gpu.prompt 3)]).toOption.bind
        Process.fenceValue = some 5 := by
  refine ⟨by decide, by decide, ?_⟩
  obtain ⟨p', hp', -, hv⟩ := Engine_ScreenFlip_advances_fenceValue_by_two
    Process.sampleInitialised
    [(Gpu.prompt 0, Gpu.prompt 1), (Gpu.prompt 2, Gpu.prompt 3)] (by decide)
    (fun g hg => by
      have h : g = (Gpu.prompt 0, Gpu.prompt 1) ∨ g = (Gpu.prompt 2, Gpu.prompt 3) := by
        simp_all
      rcases h with h | h <;> subst h <;> exact ⟨fun _ => rfl, fun _ => rfl⟩)
  rw [hp', Outcome.toOption, Option.some_bind, hv]
  decide

/-- C1 fails at the first frame after a successful `Engine::Initialize`: one call
of `Engine::ScreenFlip` takes `fenceValue` from 1 to 3. And the advance is
modulo `2 ^ 64`: after `2 ^ 63` frames the counter is 1 again. -/
theorem Engine_ScreenFlip_fenceValue_one_to_three :
    (Process.sampleInitialised.fenceValue = some 1 ∧
     (Engine.ScreenFlips Process.sampleInitialised
        [(Gpu.prompt 0, Gpu.prompt 1)]).toOption.bind Process.fenceValue = some 3) ∧
    (Engine.ScreenFlips Process.sampleInitialised
      (List.replicate (2 ^ 63) (Gpu.prompt 0, Gpu.prompt 0))).toOption.bind
        Process.fenceValue = some 1 := by
  refine ⟨by decide, ?_⟩
  rw [Engine.ScreenFlips_sample]
  norm_num [UINT64_RANGE]

/-- The spec's `Graphics::Initialize` keeps the buffer index and the swap chain in
range. -/
theorem Graphics.Initialize_frameInRange {g : Graphics} (env : GraphicsCreation)
    (hg : g.FrameInRange) : (g.Initialize env).2.1.FrameInRange := by
  obtain ⟨d, sw, pl, fc⟩ := env
  simp only [Graphics.FrameInRange, Graphics.frameCount] at hg ⊢
  obtain ⟨hi, hsc⟩ := hg
  cases d <;> cases sw <;> cases pl <;>
    simp [Graphics.Initialize, Graphics.frameCount, hi] <;>
    exact hsc

/-- A freshly constructed engine object has its buffer index in range. -/
theorem Engine.new_frameInRange (address : Nat) :
    (Engine.new address).graphics.FrameInRange := by
  simp [Engine.new, Graphics.new, Graphics.FrameInRange, Graphics.frameCount]

/-- A returning library call keeps the buffer index and the swap chain of the
instance in range. -/
theorem Process.call_frameInRange {p p' : Process} {c : EngineCall}
    (hc : p.call c = .returned p')
    (hp : ∀ e, p.instancePtr = some e → e.graphics.FrameInRange) :
    ∀ e, p'.instancePtr = some e → e.graphics.FrameInRange := by
  have hens : ∀ address, (p.ensureInstance address).graphics.FrameInRange := by
    intro address
    unfold Process.ensureInstance
    cases he : p.instancePtr with
    | none => exact Engine.new_frameInRange address
    | some e => exact hp e he
  cases c with
  | Initialize address windowOk env =>
    simp only [Process.call, Outcome.returned.injEq] at hc
    subst hc
    intro e he
    unfold Engine.Initialize at he
    cases windowOk
    · simp only [B_FAILED, Bool.not_false, if_true, Option.some.injEq] at he
      subst he
      exact hens address
    · have hgi := Graphics.Initialize_frameInRange env (hens address)
      simp only [B_FAILED, Bool.not_true, Bool.false_eq_true, if_false] at he
      split at he <;>
        · simp only [Option.some.injEq] at he
          subst he
          exact hgi
  | SetWindowSize address w h =>
    simp only [Process.call, Outcome.returned.injEq] at hc
    subst hc
    intro e he
    simp only [Engine.SetWindowSize, Option.some.injEq] at he
    subst he
    exact hens address
  | Update =>
    simp only [Process.call, Engine.Update] at hc
    cases he : p.instancePtr with
    | none => simp [he] at hc
    | some e0 =>
      simp only [he, Outcome.returned.injEq] at hc
      subst hc
      intro e he'
      exact hp e (by rw [he]; exact he')
  | IsClosedWindow closed =>
    simp only [Process.call, Engine.IsClosedWindow] at hc
    cases he : p.instancePtr with
    | none => simp [he, Outcome.bind] at hc
    | some e0 =>
      simp only [he, Outcome.bind, Outcome.returned.injEq] at hc
      subst hc
      intro e he'
      exact hp e (by rw [he]; exact he')
  | ClearScreen =>
    simp only [Process.call, Engine.ClearScreen] at hc
    cases he : p.instancePtr with
    | none => simp [he] at hc
    | some e0 =>
      simp only [he, Outcome.bind_eq_returned, Graphics.ClearScreen] at hc
      obtain ⟨r, hr, hp'⟩ := hc
      cases hsc : e0.graphics.swapChain with
      | none => simp [hsc] at hr
      | some sc =>
        simp only [hsc, Outcome.returned.injEq] at hr hp'
        subst hr
        subst hp'
        intro e he'
        simp only [Option.some.injEq] at he'
        subst he'
        exact hp e0 he
  | ScreenFlip gpu =>
    simp only [Process.call] at hc
    obtain ⟨e0, sc, he0, hsc, he', -⟩ := Engine.ScreenFlip_returned hc
    obtain ⟨-, hsc0⟩ := hp e0 he0
    obtain ⟨hcount, -⟩ := hsc0 sc hsc
    intro e he
    rw [he'] at he
    simp only [Option.some.injEq] at he
    subst he
    have hcur : sc.Present.current < Graphics.frameCount := by
      simp only [SwapChain.Present, hcount]
      exact Nat.mod_lt _ (by decide)
    refine ⟨hcur, ?_⟩
    intro sc' hsc'
    simp only [Option.some.injEq] at hsc'
    subst hsc'
    exact ⟨hcount, hcur⟩
  | Finalize gpu =>
    simp only [Process.call, Engine.Finalize] at hc
    cases he : p.instancePtr with
    | none => simp [he] at hc
    | some e0 =>
      simp only [he, Outcome.bind_eq_returned, Graphics.WaitForPreviousFrame] at hc
      obtain ⟨r, ⟨w, -, hr⟩, hp'⟩ := hc
      simp only [Outcome.returned.injEq] at hr hp'
      subst hr
      subst hp'
      intro e he'
      simp only [Option.some.injEq] at he'
      subst he'
      exact hp e0 he

/-- A returning sequence of library calls keeps the buffer index and the swap
chain of the instance in range. -/
theorem Process.run_frameInRange (cs : List EngineCall) :
    ∀ (p p' : Process), p.run cs = .returned p' →
      (∀ e, p.instancePtr = some e → e.graphics.FrameInRange) →
      ∀ e, p'.instancePtr = some e → e.graphics.FrameInRange := by
  induction cs with
  | nil =>
    intro p p' hr hp
    simp only [Process.run, Outcome.returned.injEq] at hr
    subst hr
    exact hp
  | cons c rest ih =>
    intro p p' hr hp
    simp only [Process.run, Outcome.bind_eq_returned] at hr
    obtain ⟨p1, hc, hrest⟩ := hr
    exact ih p1 p' hrest (Process.call_frameInRange hc hp)

/-- The instance of a reachable process has its buffer index and swap chain in
range. -/
theorem Process.Reachable.frameInRange {p : Process} (h : p.Reachable) :
    ∀ e, p.instancePtr = some e → e.graphics.FrameInRange := by
  obtain ⟨cs, hrun⟩ := h
  exact Process.run_frameInRange cs Process.start p hrun (by simp [Process.start])

/-- A returning library call other than `Initialize` and `ScreenFlip`, made when
there is an instance, leaves the buffer index and the swap chain as they were. -/
theorem Process.call_frame {p p' : Process} {c : EngineCall}
    (hc : p.call c = .returned p') (hk : c.keepsFrame = true) (hp : p.frame ≠ none) :
    p'.frame = p.frame := by
  obtain ⟨e, he⟩ : ∃ e, p.instancePtr = some e := by
    cases h : p.instancePtr with
    | none => simp [Process.frame, h] at hp
    | some e => exact ⟨e, rfl⟩
  cases c with
  | Initialize address windowOk env => simp [EngineCall.keepsFrame] at hk
  | ScreenFlip gpu => simp [EngineCall.keepsFrame] at hk
  | SetWindowSize address w h =>
    simp only [Process.call, Outcome.returned.injEq] at hc
    subst hc
    simp [Engine.SetWindowSize, Process.frame, Process.ensureInstance, he]
  | Update =>
    simp only [Process.call, Engine.Update, he, Outcome.returned.injEq] at hc
    subst hc
    simp [Process.frame, he]
  | IsClosedWindow closed =>
    simp only [Process.call, Engine.IsClosedWindow, he, Outcome.bind,
      Outcome.returned.injEq] at hc
    subst hc
    simp [Process.frame, he]
  | ClearScreen =>
    simp only [Process.call, Engine.ClearScreen, he, Outcome.bind_eq_returned,
      Graphics.ClearScreen] at hc
    obtain ⟨r, hr, hp'⟩ := hc
    cases hsc : e.graphics.swapChain with
    | none => simp [hsc] at hr
    | some sc =>
      simp only [hsc, Outcome.returned.injEq] at hr hp'
      subst hr
      subst hp'
      simp [Process.frame, he]
  | Finalize gpu =>
    simp only [Process.call, Engine.Finalize, he, Outcome.bind_eq_returned,
      Graphics.WaitForPreviousFrame] at hc
    obtain ⟨r, ⟨w, -, hr⟩, hp'⟩ := hc
    simp only [Outcome.returned.injEq] at hr hp'
    subst hr
    subst hp'
    simp [Process.frame, he]

/-- A returning sequence of library calls other than `Initialize` and
`ScreenFlip`, made when there is an instance, leaves the buffer index and the
swap chain as they were. -/
theorem Process.run_frame (cs : List EngineCall) :
    ∀ (p p' : Process), p.run cs = .returned p' → (∀ c ∈ cs, c.keepsFrame = true) →
      p.frame ≠ none → p'.frame = p.frame := by
  induction cs with
  | nil =>
    intro p p' hr _ _
    simp only [Process.run, Outcome.returned.injEq] at hr
    rw [hr]
  | cons c rest ih =>
    intro p p' hr hk hp
    simp only [Process.run, Outcome.bind_eq_returned] at hr
    obtain ⟨p1, hc, hrest⟩ := hr
    have h1 : p1.frame = p.frame :=
      Process.call_frame hc (hk c (List.mem_cons_self _ _)) hp
    rw [ih p1 p' hrest (fun c' hc' => hk c' (List.mem_cons_of_mem _ hc'))
      (by rw [h1]; exact hp), h1]

/-- C9: `frameCount` is 2 and `frameIndex` is 0 in a freshly constructed
controller; the `frameIndex` of every reachable engine is below `frameCount`;
after a returning `Graphics::ScreenFlip` it equals the index the swap chain
reports; and of two consecutive returning `Engine::ScreenFlip` calls, with any
calls but `Initialize` and `ScreenFlip` between them, the second leaves
`frameIndex` at the successor modulo `frameCount` of what the first left, which
is the other value of the range. -/
theorem Graphics_frameIndex_in_range_and_cycles :
    Graphics.frameCount = 2 ∧ Graphics.new.frameIndex = 0 ∧
    (∀ (p : Process) (e : Engine), p.Reachable → p.instancePtr = some e →
      e.graphics.frameIndex < Graphics.frameCount) ∧
    (∀ (g : Graphics) (gpu : Gpu) (r : Graphics × List Call),
      g.ScreenFlip gpu = .returned r →
      r.1.swapChain.map (fun sc => sc.current) = some r.1.frameIndex) ∧
    (∀ (p p1 p2 p3 : Process) (gpu gpu' : Gpu × Gpu) (mid : List EngineCall),
      p.Reachable → Engine.ScreenFlip p gpu = .returned p1 →
      (∀ c ∈ mid, c.keepsFrame = true) → p1.run mid = .returned p2 →
      Engine.ScreenFlip p2 gpu' = .returned p3 →
      ∃ i, p1.frameIndex = some i ∧ i < Graphics.frameCount ∧
        p3.frameIndex = some ((i + 1) % Graphics.frameCount) ∧
        (i + 1) % Graphics.frameCount ≠ i) := by
  refine ⟨rfl, rfl, ?_, ?_, ?_⟩
  · intro p e hp he
    exact (hp.frameInRange e he).1
  · intro g gpu r hr
    unfold Graphics.ScreenFlip at hr
    cases hsc : g.swapChain with
    | none => simp [hsc] at hr
    | some sc =>
      simp only [hsc, Outcome.bind_eq_returned] at hr
      obtain ⟨w, -, hr⟩ := hr
      simp only [Outcome.returned.injEq] at hr
      subst hr
      rfl
  · intro p p1 p2 p3 gpu gpu' mid hp h1 hmid h2 h3
    obtain ⟨e, sc, he, hsc, he1, -⟩ := Engine.ScreenFlip_returned h1
    obtain ⟨-, hin⟩ := hp.frameInRange e he
    obtain ⟨hcount, -⟩ := hin sc hsc
    have hf1 : p1.frame = some (sc.Present.current, some sc.Present) := by
      simp [Process.frame, he1]
    have hf2 : p2.frame = p1.frame :=
      Process.run_frame mid p1 p2 h2 hmid (by rw [hf1]; simp)
    obtain ⟨e2, sc2, he2, hsc2, he3, -⟩ := Engine.ScreenFlip_returned h3
    have hsc2' : sc2 = sc.Present := by
      rw [hf1] at hf2
      simp only [Process.frame, he2, Option.map_some', Option.some.injEq, Prod.mk.injEq,
        hsc2] at hf2
      exact hf2.2
    subst hsc2'
    refine ⟨sc.Present.current, ?_, ?_, ?_, ?_⟩
    · simp [Process.frameIndex, he1]
    · simp only [SwapChain.Present, hcount]
      exact Nat.mod_lt _ (by decide)
    · simp [Process.frameIndex, he3, SwapChain.Present, hcount]
    · have hlt : sc.Present.current < 2 := by
        simp only [SwapChain.Present, hcount, Graphics.frameCount]
        exact Nat.mod_lt _ (by decide)
      simp only [Graphics.frameCount]
      omega

/-- C9, at the first two frames after a successful `Engine::Initialize` at
program start, with `Update` and `ClearScreen` between the two flips:
`frameIndex` is 1 after the first flip and 0 after the second. -/
theorem Graphics_frameIndex_in_range_and_cycles_witness :
    Process.sampleFlipped.frameIndex = some 1 ∧
    Process.sampleFlippedTwice.frameIndex = some 0 := by
  obtain ⟨i, h1, -, h3, -⟩ :=
    Graphics_frameIndex_in_range_and_cycles.2.2.2.2
      Process.sampleInitialised Process.sampleFlipped Process.sampleCleared
      Process.sampleFlippedTwice (Gpu.prompt 0, Gpu.prompt 1) (Gpu.prompt 2, Gpu.prompt 3)
      [EngineCall.Update, EngineCall.ClearScreen]
      ⟨[EngineCall.Initialize 4096 true GraphicsCreation.ok], by decide⟩
      (by decide) (by decide) (by decide) (by decide)
  have hone : Process.sampleFlipped.frameIndex = some 1 := by decide
  rw [hone] at h1
  simp only [Option.some.injEq] at h1
  subst h1
  exact ⟨hone, h3⟩

/-! ## Engine: shutdown -/

/-- The spec's `Graphics::Initialize` makes no `Release` call. -/
theorem Graphics.Initialize_releaseCount (g : Graphics) (env : GraphicsCreation) :
    releaseCount (g.Initialize env).2.2 = 0 := by
  obtain ⟨d, sw, pl, cf, ce⟩ := env
  cases d <;> cases sw <;> cases pl <;> cases cf <;> cases ce <;>
    simp [Graphics.Initialize, Fence.Initialize, releaseCount]

/-- No returning library call makes a `Release` call. -/
theorem Process.call_releaseCount {p p' : Process} {c : EngineCall}
    (hc : p.call c = .returned p') : releaseCount p'.calls = releaseCount p.calls := by
  cases c with
  | Initialize address windowOk env =>
    simp only [Process.call, Outcome.returned.injEq] at hc
    subst hc
    have hg := Graphics.Initialize_releaseCount
      { (p.ensureInstance address) with
        window := { (p.ensureInstance address).window with initialized := windowOk } }.graphics
      env
    have h1 : releaseCount [Call.windowInitialize windowOk] = 0 := by
      simp [releaseCount]
    have h2 : ∀ b, releaseCount [Call.graphicsInitialize b] = 0 := by
      intro b
      simp [releaseCount]
    unfold Engine.Initialize
    cases windowOk
    · simp only [B_FAILED, Bool.not_false, if_true, releaseCount_append, h1, Nat.add_zero]
    · simp only [B_FAILED, Bool.not_true, Bool.false_eq_true, if_false]
      split <;> simp only [releaseCount_append, h1, h2, hg, Nat.add_zero]
  | SetWindowSize address w h =>
    simp only [Process.call, Outcome.returned.injEq] at hc
    subst hc
    simp [Engine.SetWindowSize, releaseCount_append, releaseCount]
  | Update =>
    simp only [Process.call, Engine.Update] at hc
    cases he : p.instancePtr with
    | none => simp [he] at hc
    | some e0 =>
      simp only [he, Outcome.returned.injEq] at hc
      subst hc
      simp [releaseCount_append, releaseCount]
  | IsClosedWindow closed =>
    simp only [Process.call, Engine.IsClosedWindow] at hc
    cases he : p.instancePtr with
    | none => simp [he, Outcome.bind] at hc
    | some e0 =>
      simp only [he, Outcome.bind, Outcome.returned.injEq] at hc
      subst hc
      simp [releaseCount_append, releaseCount]
  | ClearScreen =>
    simp only [Process.call, Engine.ClearScreen] at hc
    cases he : p.instancePtr with
    | none => simp [he] at hc
    | some e0 =>
      simp only [he, Outcome.bind_eq_returned, Graphics.ClearScreen] at hc
      obtain ⟨r, hr, hp'⟩ := hc
      cases hsc : e0.graphics.swapChain with
      | none => simp [hsc] at hr
      | some sc =>
        simp only [hsc, Outcome.returned.injEq] at hr hp'
        subst hr
        subst hp'
        simp [releaseCount_append, releaseCount]
  | ScreenFlip gpu =>
    simp only [Process.call] at hc
    obtain ⟨-, -, -, -, -, hrel⟩ := Engine.ScreenFlip_returned hc
    exact hrel
  | Finalize gpu =>
    simp only [Process.call, Engine.Finalize] at hc
    cases he : p.instancePtr with
    | none => simp [he] at hc
    | some e0 =>
      simp only [he, Outcome.bind_eq_returned, Graphics.WaitForPreviousFrame] at hc
      obtain ⟨r, ⟨w, hw, hr⟩, hp'⟩ := hc
      obtain ⟨-, -, hrel⟩ := Fence.WaitForPreviousFrame_returned hw
      simp only [Outcome.returned.injEq] at hr hp'
      subst hr
      subst hp'
      have h1 : releaseCount [Call.graphicsWaitForPreviousFrame] = 0 := by decide
      simp only [releaseCount_append, h1, hrel, Nat.add_zero]

/-- No returning sequence of library calls makes a `Release` call: whatever the
run from program start, the fence is never released. -/
theorem Process.run_releaseCount (cs : List EngineCall) :
    ∀ (p p' : Process), p.run cs = .returned p' →
      releaseCount p'.calls = releaseCount p.calls := by
  induction cs with
  | nil =>
    intro p p' hr
    simp only [Process.run, Outcome.returned.injEq] at hr
    rw [hr]
  | cons c rest ih =>
    intro p p' hr
    simp only [Process.run, Outcome.bind_eq_returned] at hr
    obtain ⟨p1, hc, hrest⟩ := hr
    rw [ih p1 p' hrest, Process.call_releaseCount hc]

/-- C8: in the run `Initialize` (successful), `ClearScreen`, `ScreenFlip`,
`Finalize` the engine makes no `Release` call at all; `Engine::Finalize` adds
the calls of one `WaitForPreviousFrame` and nothing else. -/
theorem Engine_Finalize_never_releases :
    ((Process.start.run
        [EngineCall.Initialize 4096 true GraphicsCreation.ok,
         EngineCall.ClearScreen,
         EngineCall.ScreenFlip (Gpu.prompt 0, Gpu.prompt 1),
         EngineCall.Finalize (Gpu.prompt 2)]).toOption.map
          (fun p => releaseCount p.calls) = some 0) ∧
    ((Process.start.run
        [EngineCall.Initialize 4096 true GraphicsCreation.ok,
         EngineCall.ClearScreen,
         EngineCall.ScreenFlip (Gpu.prompt 0, Gpu.prompt 1),
         EngineCall.Finalize (Gpu.prompt 2)]).toOption.map (fun p => p.calls)
      = some
        [Call.windowInitialize true, Call.graphicsInitialize true,
         Call.createFence 0 true, Call.createEvent true,
         Call.graphicsClearScreen,
         Call.graphicsScreenFlip, Call.executeCommandLists, Call.present,
         Call.signal 1, Call.getCompletedValue 0, Call.setEventOnCompletion 1,
         Call.waitForSingleObject,
         Call.graphicsWaitForPreviousFrame,
         Call.signal 2, Call.getCompletedValue 1, Call.setEventOnCompletion 2,
         Call.waitForSingleObject,
         Call.graphicsWaitForPreviousFrame,
         Call.signal 3, Call.getCompletedValue 2, Call.setEventOnCompletion 3,
         Call.waitForSingleObject]) := by
  decide

end SimpleLibrary2D
